import Mathlib

attribute [local semireducible] Rat.sub Rat.add Rat.mul Rat.inv

/-!
Shallow embedding of the semantic-search subsystem of the AI use-case
navigator repository (src/search.py), together with theorems checking the
specification's claims about it.

Modelling conventions:
* a dataframe is a list of rows; a missing (NaN) text field is `none`;
* real numbers are modelled by `ℚ`; the embedding model is an explicit
  deterministic function `encode : String → List ℚ`;
* the two persisted pickle files (`Data/embedding_cache.pkl` and
  `Data/faiss_index.pkl`) are an explicit state `St`; a absent file is `none`
  and file writes always succeed;
* fallible Python code returns `Except String`; the error strings name the
  Python exception that the corresponding line raises;
* the FAISS flat L2 index returns, for `top_k` larger than the number of
  stored vectors, result slots padded with label `-1` and distance `FLT_MAX`,
  as the FAISS documentation states; `search` with a query of the wrong
  dimension raises, and `top_k = 0` raises;
* Python list indexing (`ids[i]`) accepts negative indices, wrapping from
  the end of the list; this matters for the padded `-1` labels.
-/

/-- One case-study record, with the five text fields read by
`generate_embeddings`; a `none` field models a pandas NaN. -/
structure Row where
  use_case_name : Option String
  company : Option String
  outcome : Option String
  ai_type : Option String
  business_function : Option String
deriving DecidableEq

/-- The in-memory image of the pickled FAISS flat index: its dimension and
the stored vectors in slot order. -/
structure FaissIndex where
  d : ℕ
  vecs : List (List ℚ)
deriving DecidableEq

/-- The persisted artifacts: the embedding cache (the dataframe rows zipped
with their embedding column) and the FAISS index file (index plus the ids
mapping slot → dataframe position). `none` means the file does not exist. -/
structure St where
  cacheFile : Option (List (Row × List ℚ))
  indexFile : Option (FaissIndex × List ℕ)
deriving DecidableEq

/-- `FLT_MAX`, the 32-bit float maximum FAISS uses to pad missing results. -/
def floatMax : ℚ := 340282346638528859811704183484516925440

/-- pandas elementwise equality on a possibly-NaN column entry:
`NaN == anything` is `False`, in particular `NaN == NaN` is `False`. -/
def pandasEq (a b : Option String) : Bool :=
  match a, b with
  | some x, some y => x == y
  | _, _ => false

/-- The cache-reuse guard of `generate_embeddings` (src/search.py line 43):
`len(cache_data) == len(df) and all(cache_data[..name..] == df[..name..])`. -/
def cacheValid (c : List (Row × List ℚ)) (df : List Row) : Bool :=
  c.length == df.length &&
    ((c.map (fun p => p.1.use_case_name)).zip (df.map (fun r => r.use_case_name))).all
      (fun p => pandasEq p.1 p.2)

/-- The composed text embedded for one record (src/search.py lines 52-58):
each field is replaced by the empty string when it is NaN, then interpolated
as in the Python f-string. -/
def composedText (row : Row) : String :=
  let title := match row.use_case_name with | some s => s | none => ""
  let company := match row.company with | some s => s | none => ""
  let outcome := match row.outcome with | some s => s | none => ""
  let ai_type := match row.ai_type with | some s => s | none => ""
  let business_function := match row.business_function with | some s => s | none => ""
  s!"{title}. {company} used {ai_type} for {business_function}. {outcome}"

/-- Embedding every composed text of the dataframe, in row order
(`embed_texts` applied to the texts built in src/search.py lines 50-59). -/
def freshEmbs (encode : String → List ℚ) (df : List Row) : List (List ℚ) :=
  df.map (fun r => encode (composedText r))

/-- `generate_embeddings` (src/search.py lines 32-76): reuse the pickled
cache when the guard of line 43 accepts it, otherwise embed every composed
text afresh and overwrite the cache file with the dataframe plus its new
embedding column. -/
def generate_embeddings (encode : String → List ℚ) (df : List Row) (st : St) :
    List (List ℚ) × St :=
  match st.cacheFile with
  | some c =>
    if cacheValid c df then (c.map (fun p => p.2), st)
    else
      let embs := freshEmbs encode df
      (embs, { st with cacheFile := some (df.zip embs) })
  | none =>
    let embs := freshEmbs encode df
    (embs, { st with cacheFile := some (df.zip embs) })

/-- `np.array(embeddings).astype(float32)` followed by `shape[1]`
(src/search.py lines 100-106): an empty list has shape `(0,)` so reading
`shape[1]` raises IndexError, and a ragged list of rows raises ValueError;
otherwise the matrix and its column count (the index dimension) result. -/
def np_matrix (embs : List (List ℚ)) : Except String (ℕ × List (List ℚ)) :=
  match embs with
  | [] => .error "IndexError: tuple index out of range"
  | h :: t =>
    if t.all (fun v => v.length == h.length) then .ok (h.length, h :: t)
    else .error "ValueError: setting an array element with a sequence"

/-- The fresh-build path of `build_faiss_index` (src/search.py lines 96-120):
generate embeddings, build the flat index over them, set the ids mapping to
`range(len(df))` and persist the index file. -/
def buildFreshIndex (encode : String → List ℚ) (df : List Row) (st : St) :
    Except String (FaissIndex × List ℕ) × St :=
  let r := generate_embeddings encode df st
  match np_matrix r.1 with
  | .error e => (.error e, r.2)
  | .ok dm =>
    let idx : FaissIndex := ⟨dm.1, dm.2⟩
    let ids := List.range df.length
    (.ok (idx, ids), { r.2 with indexFile := some (idx, ids) })

/-- `build_faiss_index` (src/search.py lines 78-120): reuse the pickled
index whenever its ids count equals the dataframe's row count (line 90),
otherwise rebuild from scratch. -/
def build_faiss_index (encode : String → List ℚ) (df : List Row) (st : St) :
    Except String (FaissIndex × List ℕ) × St :=
  match st.indexFile with
  | some p =>
    if p.2.length == df.length then (.ok p, st)
    else buildFreshIndex encode df st
  | none => buildFreshIndex encode df st

/-- Squared Euclidean distance, the metric of `faiss.IndexFlatL2`. -/
def squaredL2 (q v : List ℚ) : ℚ :=
  ((q.zip v).map (fun p => (p.1 - p.2) ^ 2)).sum

/-- Order on (distance, slot) pairs: ascending distance, ties broken by
slot order. -/
def lexLe (a b : ℚ × ℤ) : Prop :=
  a.1 < b.1 ∨ (a.1 = b.1 ∧ a.2 ≤ b.2)

instance : DecidableRel lexLe := fun a b =>
  if h1 : a.1 < b.1 then isTrue (Or.inl h1)
  else if h2 : a.1 = b.1 ∧ a.2 ≤ b.2 then isTrue (Or.inr h2)
  else isFalse (fun hc => hc.elim h1 h2)

/-- `index.search(x, k)` on a flat L2 index: raises when the query dimension
disagrees with the index dimension or when `k` is not positive; otherwise
returns the `k` nearest stored vectors as (squared distance, slot) pairs,
nearest first, padded with `(FLT_MAX, -1)` when fewer than `k` vectors are
stored. -/
def faiss_search (idx : FaissIndex) (q : List ℚ) (k : ℕ) :
    Except String (List (ℚ × ℤ)) :=
  if q.length ≠ idx.d then .error "AssertionError: d == self.d"
  else if k = 0 then .error "RuntimeError: k should be positive"
  else
    let pairs := idx.vecs.enum.map (fun p => (squaredL2 q p.2, (p.1 : ℤ)))
    let top := (List.insertionSort lexLe pairs).take k
    .ok (top ++ List.replicate (k - top.length) (floatMax, -1))

/-- Python list indexing `l[i]`: a negative index wraps from the end of the
list; out of range raises IndexError. -/
def pyGet {α : Type} (l : List α) (i : ℤ) : Except String α :=
  let j : ℤ := if i < 0 then i + l.length else i
  if h : 0 ≤ j ∧ j < l.length then
    .ok (l.get ⟨j.toNat, by omega⟩)
  else .error "IndexError: list index out of range"

/-- The list comprehension `[ids[i] for i in indices[0]]`
(src/search.py line 185). -/
def pyMapIndex (ids : List ℕ) : List ℤ → Except String (List ℕ)
  | [] => .ok []
  | i :: rest =>
    match pyGet ids i with
    | .error e => .error e
    | .ok v =>
      match pyMapIndex ids rest with
      | .error e => .error e
      | .ok vs => .ok (v :: vs)

/-- One positional row lookup of `df.iloc`. -/
def ilocGet (df : List Row) (i : ℕ) : Except String Row :=
  match df.get? i with
  | some r => .ok r
  | none => .error "IndexError: positional indexers are out-of-bounds"

/-- `df.iloc[df_indices]` (src/search.py line 188): the selected rows, in
selection order; any out-of-range position raises. -/
def ilocRows (df : List Row) : List ℕ → Except String (List Row)
  | [] => .ok []
  | i :: rest =>
    match ilocGet df i with
    | .error e => .error e
    | .ok r =>
      match ilocRows df rest with
      | .error e => .error e
      | .ok rs => .ok (r :: rs)

/-- `np.max` over a nonempty list (the empty case raises in the caller). -/
def npMax : List ℚ → ℚ
  | [] => 0
  | h :: t => t.foldl max h

/-- The distance-to-similarity conversion (src/search.py lines 191-195):
`1 - distances / max(distances)` when the maximum is positive, otherwise a
vector of ones. -/
def npSimilarities (dists : List ℚ) : List ℚ :=
  let m := npMax dists
  if 0 < m then dists.map (fun d => 1 - d / m) else dists.map (fun _ => (1 : ℚ))

/-- Lines 188-196 of src/search.py: select the result rows, then compute
`np.max(distances)` (raising on an empty distance array) and attach the
similarity column. -/
def hydrate (df : List Row) (dfIndices : List ℕ) (dists : List ℚ) :
    Except String (List (Row × ℚ)) :=
  match ilocRows df dfIndices with
  | .error e => .error e
  | .ok rows =>
    match dists with
    | [] => .error "ValueError: zero-size array to reduction operation maximum which has no identity"
    | _ :: _ => .ok (rows.zip (npSimilarities dists))

/-- Lines 179-185 of src/search.py, after the index is settled: encode the
query, run the FAISS search, and map the returned slots through `ids`. -/
def searchAfterIndex (encode : String → List ℚ) (query : String) (k : ℕ)
    (idx : FaissIndex) (ids : List ℕ) : Except String (List ℕ × List ℚ) :=
  match faiss_search idx (encode query) k with
  | .error e => .error e
  | .ok pairs =>
    match pyMapIndex ids (pairs.map (fun p => p.2)) with
    | .error e => .error e
    | .ok dfIndices => .ok (dfIndices, pairs.map (fun p => p.1))

/-- Lines 158-185 of src/search.py: ensure the index (building it if
needed), and on a query-dimension mismatch delete both persisted files,
rebuild once, re-encode and search the rebuilt index. -/
def searchIndices (encode : String → List ℚ) (query : String) (df : List Row)
    (k : ℕ) (st : St) : Except String (List ℕ × List ℚ) × St :=
  match build_faiss_index encode df st with
  | (.error e, st1) => (.error e, st1)
  | (.ok (idx, ids), st1) =>
    if (encode query).length ≠ idx.d then
      match build_faiss_index encode df
          { st1 with cacheFile := none, indexFile := none } with
      | (.error e, st3) => (.error e, st3)
      | (.ok (idx2, ids2), st3) => (searchAfterIndex encode query k idx2 ids2, st3)
    else (searchAfterIndex encode query k idx ids, st1)

/-- The tail of `semantic_search` run against a settled index. -/
def searchTail (encode : String → List ℚ) (query : String) (df : List Row)
    (k : ℕ) (idx : FaissIndex) (ids : List ℕ) : Except String (List (Row × ℚ)) :=
  match searchAfterIndex encode query k idx ids with
  | .error e => .error e
  | .ok p => hydrate df p.1 p.2

/-- `semantic_search` (src/search.py lines 154-197): the full pipeline,
returning the result rows paired with their similarity scores, together with
the final file state. -/
def semantic_search (encode : String → List ℚ) (query : String) (df : List Row)
    (top_k : ℕ) (st : St) : Except String (List (Row × ℚ)) × St :=
  match searchIndices encode query df top_k st with
  | (.error e, st1) => (.error e, st1)
  | (.ok p, st1) => (hydrate df p.1 p.2, st1)

/-- The raw distance array the search pipeline uses for a given call (the
`distances` of src/search.py line 182, for the index actually searched). -/
def semanticDistances (encode : String → List ℚ) (query : String)
    (df : List Row) (k : ℕ) (st : St) : Except String (List ℚ) :=
  match (searchIndices encode query df k st).1 with
  | .error e => .error e
  | .ok p => .ok p.2

/-- A pandas dataframe object on the Python heap: its rows and, once
assigned, its similarity column. -/
structure PyDf where
  rows : List Row
  sims : Option (List ℚ)
deriving DecidableEq

/-- `semantic_search` with the Python object heap explicit: the input
dataframe is `heap[ref]` and is only read; line 188's `.copy()` allocates a
fresh object and line 193/195's column assignment mutates only that fresh
object. Returns a reference to the result dataframe. -/
def semantic_search_heap (encode : String → List ℚ) (query : String)
    (top_k : ℕ) (heap : List PyDf) (ref : ℕ) (st : St) :
    Except String ℕ × List PyDf × St :=
  let df := ((heap.get? ref).getD ⟨[], none⟩).rows
  match searchIndices encode query df top_k st with
  | (.error e, st1) => (.error e, heap, st1)
  | (.ok p, st1) =>
    match ilocRows df p.1 with
    | .error e => (.error e, heap, st1)
    | .ok rows =>
      let newRef := heap.length
      let heap1 := heap ++ [⟨rows, none⟩]
      match p.2 with
      | [] => (.error "ValueError: zero-size array to reduction operation maximum which has no identity", heap1, st1)
      | _ :: _ => (.ok newRef, heap1.set newRef ⟨rows, some (npSimilarities p.2)⟩, st1)

deriving instance DecidableEq for Except

/-! ### Concrete fixtures used by counterexamples and witnesses -/

/-- A toy deterministic embedder: one-dimensional, embedding a string to its
length. -/
def toyEnc (s : String) : List ℚ := [(s.length : ℚ)]

/-- A toy embedder whose query-side output dimension (2) disagrees with the
dimension of every record embedding (1), modelling an embedder change that a
rebuild cannot repair. -/
def twoDimQueryEnc (s : String) : List ℚ :=
  if s = "q" then [0, 0] else [(s.length : ℚ)]

/-- A record with all five fields present. -/
def rowA : Row := ⟨some "t", some "c", some "o", some "a", some "b"⟩

/-- A second record differing from `rowA` only in its title. -/
def rowB : Row := ⟨some "ttt", some "c", some "o", some "a", some "b"⟩

/-- `rowA` with its outcome text mutated and everything else unchanged. -/
def rowNew : Row := ⟨some "t", some "c", some "onew", some "a", some "b"⟩

/-- The state with neither persisted file present. -/
def st0 : St := ⟨none, none⟩

/-- A one-record dataset. -/
def df1 : List Row := [rowA]

/-- A two-record dataset. -/
def df2 : List Row := [rowA, rowB]

/-- A persisted embedding cache recorded for the pre-mutation dataset
`[rowA]`, holding the (stale) vector `[42]` for that record. -/
def stStale : St := ⟨some [(rowA, [42])], none⟩

/-! ### C1 -/

/-- Claim C1 counterexample: the live dataset mutates `rowA`'s outcome text
(`rowNew`), yet `generate_embeddings` reuses the persisted cache unchanged
and returns the stale vector `[42]`, which differs from the embedding of the
new composed text; the outcome field is not part of the reuse check. -/
theorem cache_reused_despite_outcome_mutation :
    generate_embeddings toyEnc [rowNew] stStale = ([[(42 : ℚ)]], stStale)
    ∧ rowA.outcome ≠ rowNew.outcome
    ∧ [[(42 : ℚ)]] ≠ freshEmbs toyEnc [rowNew] := by
  refine ⟨by decide, by decide, by decide⟩

/-- Claim C1 (amended): the persisted embedding cache is reused exactly when
the stored record count equals the live count and every stored title
(`use_case_name`) matches the live one in dataset order under pandas
equality (a missing title never matches); the company, category and outcome
fields are not compared, and on reuse the stale stored vectors are returned
with the state untouched, while on a failed check the composed texts are all
re-embedded and the cache file is overwritten. -/
theorem cache_reuse_checks_count_and_title (encode : String → List ℚ)
    (df : List Row) (st : St) (c : List (Row × List ℚ))
    (h : st.cacheFile = some c) :
    (cacheValid c df = true →
      generate_embeddings encode df st = (c.map (fun p => p.2), st))
    ∧ (cacheValid c df = false →
      generate_embeddings encode df st =
        (freshEmbs encode df,
          { st with cacheFile := some (df.zip (freshEmbs encode df)) }))
    ∧ (cacheValid c df = true ↔ c.length = df.length ∧
        ∀ p ∈ (c.map (fun e => e.1.use_case_name)).zip
            (df.map (fun r => r.use_case_name)),
          ∃ t, p.1 = some t ∧ p.2 = some t) := by
  refine ⟨fun hv => ?_, fun hv => ?_, ?_⟩
  · simp [generate_embeddings, h, hv]
  · simp [generate_embeddings, h, hv]
  · refine ⟨fun hv => ?_, fun hv => ?_⟩
    · simp only [cacheValid, Bool.and_eq_true, beq_iff_eq, List.all_eq_true] at hv
      refine ⟨hv.1, fun p hp => ?_⟩
      have := hv.2 p hp
      cases h1 : p.1 with
      | none => simp [pandasEq, h1] at this
      | some t =>
        cases h2 : p.2 with
        | none => simp [pandasEq, h1, h2] at this
        | some t2 =>
          simp [pandasEq, h1, h2] at this
          exact ⟨t, rfl, by simp [this]⟩
    · obtain ⟨hl, hall⟩ := hv
      simp only [cacheValid, Bool.and_eq_true, beq_iff_eq, List.all_eq_true]
      refine ⟨hl, fun p hp => ?_⟩
      obtain ⟨t, h1, h2⟩ := hall p hp
      simp [pandasEq, h1, h2]

/-- Witness for the amended C1: in the concrete stale-cache state the reuse
guard accepts (count matches, titles match) and the stale vector `[42]` is
returned unchanged. -/
theorem cache_reuse_checks_count_and_title_witness :
    generate_embeddings toyEnc [rowNew] stStale = ([[(42 : ℚ)]], stStale) :=
  (cache_reuse_checks_count_and_title toyEnc [rowNew] stStale
    [(rowA, [42])] rfl).1 (by decide)

/-! ### C3 -/

/-- Claim C3 failing input: a one-record dataset searched with `top_k = 2`.
FAISS pads the missing neighbor with slot `-1`, Python's `ids[-1]` wraps to
the last (only) id, and the call returns two results with the single record
duplicated, instead of exactly one result. -/
theorem k_exceeding_count_duplicates_results :
    (semantic_search toyEnc "q" df1 2 st0).1 =
      .ok [(rowA, 1 - 361 / floatMax), (rowA, 0)]
    ∧ df1.length = 1 := by
  refine ⟨by decide, by decide⟩

/-! ### C4 -/

/-- Claim C4 counterexample: on the empty dataset, building the index is not
a defined no-op — `np.array([])` has no second shape dimension, so the build
raises and `semantic_search` propagates the error instead of returning an
empty result list. -/
theorem empty_dataset_search_raises :
    (semantic_search toyEnc "q" [] 5 st0).1 =
      .error "IndexError: tuple index out of range" := by
  decide

/-! ### C5 -/

/-- Claim C5 counterexample: a `top_k = 1` search over a non-empty dataset
whose nearest distance is positive (361) returns similarity `0`, not `1`:
the code normalizes by the maximum distance, which for a single result is
the result's own distance. -/
theorem k1_similarity_is_zero_not_one :
    (semantic_search toyEnc "q" df1 1 st0).1 = .ok [(rowA, 0)]
    ∧ (0 : ℚ) ≠ 1 := by
  refine ⟨by decide, by decide⟩

/-! ### Helper lemmas -/

/-- Python indexing into an empty list always raises. -/
theorem pyGet_nil {α : Type} (i : ℤ) :
    pyGet ([] : List α) i = .error "IndexError: list index out of range" := by
  by_cases hi : i < 0 <;> simp [pyGet, hi]

/-- A successful FAISS search returns exactly `k` result slots. -/
theorem faiss_search_length (idx : FaissIndex) (qe : List ℚ) (k : ℕ)
    (pairs : List (ℚ × ℤ)) (h : faiss_search idx qe k = .ok pairs) :
    pairs.length = k := by
  unfold faiss_search at h
  split at h
  · cases h
  · split at h
    · cases h
    · injection h with h'
      subst h'
      simp only [List.length_append, List.length_replicate, List.length_take]
      omega

/-- FAISS search with `k = 0` raises. -/
theorem faiss_search_k_zero (idx : FaissIndex) (qe : List ℚ) :
    ∃ e, faiss_search idx qe 0 = .error e := by
  unfold faiss_search
  split
  · exact ⟨_, rfl⟩
  · exact ⟨_, rfl⟩

/-- Searching with an empty slot→row mapping always raises: every returned
slot (real or the `-1` padding) fails the `ids[i]` lookup. -/
theorem searchAfterIndex_nil_ids (encode : String → List ℚ) (query : String)
    (k : ℕ) (idx : FaissIndex) :
    ∃ e, searchAfterIndex encode query k idx [] = .error e := by
  unfold searchAfterIndex
  cases hf : faiss_search idx (encode query) k with
  | error e => exact ⟨e, rfl⟩
  | ok pairs =>
    cases k with
    | zero =>
      obtain ⟨e, he⟩ := faiss_search_k_zero idx (encode query)
      rw [he] at hf
      cases hf
    | succ n =>
      have hlen : pairs.length = n + 1 := faiss_search_length _ _ _ _ hf
      cases pairs with
      | nil => simp at hlen
      | cons p rest =>
        simp only [List.map_cons, pyMapIndex, pyGet_nil]
        exact ⟨_, rfl⟩

/-- Generating embeddings for the empty dataframe yields the empty list,
whatever the cache state holds. -/
theorem generate_embeddings_nil_fst (encode : String → List ℚ) (st : St) :
    (generate_embeddings encode [] st).1 = [] := by
  obtain ⟨cf, idxf⟩ := st
  cases cf with
  | none => simp [generate_embeddings, freshEmbs]
  | some c =>
    cases c with
    | nil => simp [generate_embeddings, cacheValid, freshEmbs]
    | cons x xs => simp [generate_embeddings, cacheValid, freshEmbs]

/-- A fresh build over the empty dataframe raises at `shape[1]`. -/
theorem buildFreshIndex_nil (encode : String → List ℚ) (st : St) :
    buildFreshIndex encode [] st =
      (.error "IndexError: tuple index out of range",
        (generate_embeddings encode [] st).2) := by
  unfold buildFreshIndex
  simp only [generate_embeddings_nil_fst, np_matrix]

/-- Claim C4 (amended): on the empty dataset the build is not a defined
no-op — every `semantic_search` call over zero records returns an error
(either the `shape[1]` IndexError from the fresh build, or an id-lookup
IndexError when a persisted empty index is reused), never an empty result
list. -/
theorem empty_dataset_search_always_errors (encode : String → List ℚ)
    (query : String) (k : ℕ) (st : St) :
    ∃ e, (semantic_search encode query [] k st).1 = .error e := by
  have hmain : ∃ e st', searchIndices encode query [] k st = (.error e, st') := by
    unfold searchIndices
    unfold build_faiss_index
    obtain ⟨cf, idxf⟩ := st
    cases idxf with
    | none =>
      rw [buildFreshIndex_nil]
      exact ⟨_, _, rfl⟩
    | some p =>
      obtain ⟨idx, ids⟩ := p
      cases ids with
      | cons i is =>
        simp only [List.length_cons, List.length_nil]
        rw [if_neg (by simp)]
        rw [buildFreshIndex_nil]
        exact ⟨_, _, rfl⟩
      | nil =>
        simp only [List.length_nil, beq_self_eq_true, if_true]
        split
        · rw [buildFreshIndex_nil]
          exact ⟨_, _, rfl⟩
        · obtain ⟨e, he⟩ := searchAfterIndex_nil_ids encode query k idx
          rw [he]
          exact ⟨e, _, rfl⟩
  obtain ⟨e, st', hs⟩ := hmain
  refine ⟨e, ?_⟩
  unfold semantic_search
  rw [hs]

/-! ### C7 -/

/-- Claim C7: the composed text passed to the embedder concatenates, in
fixed order, title, company, the phrase "used <ai_type> for
<business_function>", then the outcome, with every missing (NaN) field
replaced by the empty string, and never fails. -/
theorem composed_text_fixed_order (r : Row) :
    composedText r =
      r.use_case_name.getD "" ++ ". " ++ r.company.getD "" ++ " used "
        ++ r.ai_type.getD "" ++ " for " ++ r.business_function.getD ""
        ++ ". " ++ r.outcome.getD "" := by
  obtain ⟨t, c, o, a, b⟩ := r
  cases t <;> cases c <;> cases o <;> cases a <;> cases b <;>
    simp only [composedText, toString, Option.getD, String.append_assoc,
      String.empty_append, String.append_empty]

/-! ### C6 -/

/-- Claim C6: when the query embedding's dimension disagrees with the
index's, `semantic_search` deletes both persisted files, rebuilds exactly
once, and retries encoding and searching against the rebuilt index (the
whole call reduces to the plain search tail on the rebuilt index, from the
state left by that single rebuild); if the dimension still disagrees after
the rebuild, the call surfaces the FAISS dimension assertion as a fatal
error instead of rebuilding again. -/
theorem dim_mismatch_single_rebuild_then_fatal (encode : String → List ℚ)
    (query : String) (df : List Row) (k : ℕ) (st st1 st2 : St)
    (idx idx2 : FaissIndex) (ids ids2 : List ℕ)
    (h1 : build_faiss_index encode df st = (.ok (idx, ids), st1))
    (h2 : (encode query).length ≠ idx.d)
    (h3 : build_faiss_index encode df
        { st1 with cacheFile := none, indexFile := none } = (.ok (idx2, ids2), st2)) :
    semantic_search encode query df k st = (searchTail encode query df k idx2 ids2, st2)
    ∧ ((encode query).length ≠ idx2.d →
        (semantic_search encode query df k st).1 = .error "AssertionError: d == self.d") := by
  have hsi : searchIndices encode query df k st =
      (searchAfterIndex encode query k idx2 ids2, st2) := by
    unfold searchIndices
    simp only [h1]
    rw [if_pos h2]
    simp only [h3]
  have hmain : semantic_search encode query df k st =
      (searchTail encode query df k idx2 ids2, st2) := by
    unfold semantic_search searchTail
    rw [hsi]
    cases hsa : searchAfterIndex encode query k idx2 ids2 with
    | error e => rfl
    | ok p => rfl
  refine ⟨hmain, fun h4 => ?_⟩
  have hf : faiss_search idx2 (encode query) k = .error "AssertionError: d == self.d" := by
    unfold faiss_search
    rw [if_pos h4]
  have hsa : searchAfterIndex encode query k idx2 ids2 =
      .error "AssertionError: d == self.d" := by
    unfold searchAfterIndex
    rw [hf]
  rw [hmain]
  unfold searchTail
  rw [hsa]

/-- Witness for C6: with an embedder whose query output is 2-dimensional
while every record embedding is 1-dimensional, the call rebuilds once and
then fails with the FAISS dimension assertion. -/
theorem dim_mismatch_single_rebuild_then_fatal_witness :
    (semantic_search twoDimQueryEnc "q" df1 5 st0).1 =
      .error "AssertionError: d == self.d" :=
  (dim_mismatch_single_rebuild_then_fatal twoDimQueryEnc "q" df1 5 st0
    ⟨some [(rowA, [20])], some (⟨1, [[20]]⟩, [0])⟩
    ⟨some [(rowA, [20])], some (⟨1, [[20]]⟩, [0])⟩
    ⟨1, [[20]]⟩ ⟨1, [[20]]⟩ [0] [0]
    (by decide) (by decide) (by decide)).2 (by decide)

/-! ### C10 -/

/-- Claim C10: `semantic_search` never mutates its input dataframe (nor any
other pre-existing dataframe on the heap): the result rows are written to a
freshly allocated copy, and every heap object that existed before the call
is unchanged after it. -/
theorem search_never_mutates_input_df (encode : String → List ℚ)
    (query : String) (k : ℕ) (heap : List PyDf) (ref : ℕ) (st : St) (j : ℕ)
    (hj : j < heap.length) :
    ((semantic_search_heap encode query k heap ref st).2.1)[j]? = heap[j]? := by
  unfold semantic_search_heap
  dsimp only
  split
  · rfl
  · split
    · rfl
    · split
      · exact List.getElem?_append_left hj
      · rw [List.getElem?_set_ne (by omega)]
        exact List.getElem?_append_left hj

/-- Witness for C10: a concrete one-record heap searched with `k = 1`; the
input dataframe at reference 0 is untouched. -/
theorem search_never_mutates_input_df_witness :
    ((semantic_search_heap toyEnc "q" 1 [⟨df1, none⟩] 0 st0).2.1)[0]? =
      [(⟨df1, none⟩ : PyDf)][0]? :=
  search_never_mutates_input_df toyEnc "q" 1 [⟨df1, none⟩] 0 st0 0 (by decide)

/-! ### Structure lemmas for successful searches -/

instance : IsTotal (ℚ × ℤ) lexLe := by
  constructor
  intro a b
  rcases lt_trichotomy a.1 b.1 with h | h | h
  · exact Or.inl (Or.inl h)
  · rcases le_total a.2 b.2 with h2 | h2
    · exact Or.inl (Or.inr ⟨h, h2⟩)
    · exact Or.inr (Or.inr ⟨h.symm, h2⟩)
  · exact Or.inr (Or.inl h)

instance : IsTrans (ℚ × ℤ) lexLe := by
  constructor
  intro a b c hab hbc
  rcases hab with h1 | ⟨h1, h1'⟩
  · rcases hbc with h2 | ⟨h2, h2'⟩
    · exact Or.inl (h1.trans h2)
    · exact Or.inl (h2 ▸ h1)
  · rcases hbc with h2 | ⟨h2, h2'⟩
    · exact Or.inl (h1 ▸ h2)
    · exact Or.inr ⟨h1.trans h2, h1'.trans h2'⟩

/-- A squared Euclidean distance is non-negative. -/
theorem squaredL2_nonneg (q v : List ℚ) : 0 ≤ squaredL2 q v := by
  apply List.sum_nonneg
  intro x hx
  obtain ⟨p, hp, rfl⟩ := List.mem_map.mp hx
  positivity

/-- `pyMapIndex` preserves length on success. -/
theorem pyMapIndex_length (ids : List ℕ) (l : List ℤ) (out : List ℕ)
    (h : pyMapIndex ids l = .ok out) : out.length = l.length := by
  induction l generalizing out with
  | nil =>
    simp only [pyMapIndex] at h
    injection h with h
    subst h
    rfl
  | cons i rest ih =>
    simp only [pyMapIndex] at h
    cases hg : pyGet ids i with
    | error e => rw [hg] at h; cases h
    | ok v =>
      rw [hg] at h
      cases hr : pyMapIndex ids rest with
      | error e => rw [hr] at h; cases h
      | ok vs =>
        rw [hr] at h
        injection h with h
        subst h
        simp [ih vs hr]

/-- `ilocRows` preserves length on success. -/
theorem ilocRows_length (df : List Row) (l : List ℕ) (rows : List Row)
    (h : ilocRows df l = .ok rows) : rows.length = l.length := by
  induction l generalizing rows with
  | nil =>
    simp only [ilocRows] at h
    injection h with h
    subst h
    rfl
  | cons i rest ih =>
    simp only [ilocRows] at h
    cases hg : ilocGet df i with
    | error e => rw [hg] at h; cases h
    | ok r =>
      rw [hg] at h
      cases hr : ilocRows df rest with
      | error e => rw [hr] at h; cases h
      | ok rs =>
        rw [hr] at h
        injection h with h
        subst h
        simp [ih rs hr]

/-- The similarity column has the same length as the distance array. -/
theorem npSimilarities_length (ds : List ℚ) :
    (npSimilarities ds).length = ds.length := by
  unfold npSimilarities
  dsimp only
  split <;> simp

/-- Every element of a list is at most its left fold by `max`. -/
theorem le_foldl_max (t : List ℚ) (a : ℚ) :
    a ≤ t.foldl max a ∧ ∀ x ∈ t, x ≤ t.foldl max a := by
  induction t generalizing a with
  | nil => exact ⟨le_refl a, by simp⟩
  | cons b t ih =>
    obtain ⟨h1, h2⟩ := ih (max a b)
    refine ⟨le_trans (le_max_left a b) h1, fun x hx => ?_⟩
    rcases List.mem_cons.mp hx with rfl | hx
    · exact le_trans (le_max_right a x) h1
    · exact h2 x hx

/-- Every member of a distance list is at most its `np.max`. -/
theorem mem_le_npMax (ds : List ℚ) (x : ℚ) (hx : x ∈ ds) : x ≤ npMax ds := by
  cases ds with
  | nil => cases hx
  | cons h t =>
    rcases List.mem_cons.mp hx with rfl | hx
    · exact (le_foldl_max t x).1
    · exact (le_foldl_max t h).2 x hx

/-- Shape of a successful FAISS search: a lexicographically sorted block of
real (slot, non-negative distance) results followed by `(FLT_MAX, -1)`
padding. -/
theorem faiss_search_ok_shape (idx : FaissIndex) (qe : List ℚ) (k : ℕ)
    (pairs : List (ℚ × ℤ)) (h : faiss_search idx qe k = .ok pairs) :
    ∃ s m, pairs = s ++ List.replicate m (floatMax, -1)
      ∧ List.Pairwise lexLe s ∧ ∀ x ∈ s, 0 ≤ x.1 := by
  unfold faiss_search at h
  split at h
  · cases h
  · split at h
    · cases h
    · injection h with h'
      refine ⟨_, _, h'.symm, ?_, ?_⟩
      · exact List.Pairwise.sublist (List.take_sublist k _)
          (List.sorted_insertionSort lexLe _)
      · intro x hx
        have hx2 : x ∈ List.insertionSort lexLe
            (idx.vecs.enum.map (fun p => (squaredL2 qe p.2, (p.1 : ℤ)))) :=
          List.mem_of_mem_take hx
        have hx3 := (List.perm_insertionSort lexLe _).mem_iff.mp hx2
        obtain ⟨p, hp, rfl⟩ := List.mem_map.mp hx3
        exact squaredL2_nonneg qe p.2

/-- Every distance a successful FAISS search returns is non-negative. -/
theorem faiss_search_nonneg (idx : FaissIndex) (qe : List ℚ) (k : ℕ)
    (pairs : List (ℚ × ℤ)) (h : faiss_search idx qe k = .ok pairs) :
    ∀ x ∈ pairs, 0 ≤ x.1 := by
  obtain ⟨s, m, rfl, _, hpos⟩ := faiss_search_ok_shape idx qe k pairs h
  intro x hx
  rcases List.mem_append.mp hx with hx | hx
  · exact hpos x hx
  · rw [List.eq_of_mem_replicate hx]
    decide

/-- Dissect a successful `searchAfterIndex` run into its FAISS result and
id-mapping. -/
theorem searchAfterIndex_ok_shape (encode : String → List ℚ) (query : String)
    (k : ℕ) (idx : FaissIndex) (ids : List ℕ) (ixs : List ℕ) (ds : List ℚ)
    (h : searchAfterIndex encode query k idx ids = .ok (ixs, ds)) :
    ∃ pairs, faiss_search idx (encode query) k = .ok pairs
      ∧ pyMapIndex ids (pairs.map (fun p => p.2)) = .ok ixs
      ∧ ds = pairs.map (fun p => p.1) := by
  unfold searchAfterIndex at h
  split at h
  · cases h
  · rename_i pairs heq
    split at h
    · cases h
    · rename_i dfI heq2
      simp only [Except.ok.injEq, Prod.mk.injEq] at h
      obtain ⟨h1, h2⟩ := h
      exact ⟨pairs, heq, h1 ▸ heq2, h2.symm⟩

/-- Dissect a successful `searchIndices` run: whatever index ended up being
searched, the distances and row positions come from one FAISS search with
the query embedding and one pass over the ids mapping. -/
theorem searchIndices_ok_shape (encode : String → List ℚ) (query : String)
    (df : List Row) (k : ℕ) (st : St) (ixs : List ℕ) (ds : List ℚ)
    (h : (searchIndices encode query df k st).1 = .ok (ixs, ds)) :
    ∃ idx ids pairs, faiss_search idx (encode query) k = .ok pairs
      ∧ pyMapIndex ids (pairs.map (fun p => p.2)) = .ok ixs
      ∧ ds = pairs.map (fun p => p.1) := by
  unfold searchIndices at h
  split at h
  · cases h
  · rename_i idx ids st1 heq
    split at h
    · split at h
      · cases h
      · rename_i idx2 ids2 st3 heq2
        dsimp only at h
        obtain ⟨pairs, hp⟩ := searchAfterIndex_ok_shape _ _ _ _ _ _ _ h
        exact ⟨idx2, ids2, pairs, hp⟩
    · dsimp only at h
      obtain ⟨pairs, hp⟩ := searchAfterIndex_ok_shape _ _ _ _ _ _ _ h
      exact ⟨idx, ids, pairs, hp⟩

/-- Dissect a successful `semantic_search` run: the searched positions and
distances, the selected rows, and the fact that the result is those rows
zipped with the similarity column. -/
theorem search_ok_parts (encode : String → List ℚ) (query : String)
    (df : List Row) (k : ℕ) (st : St) (res : List (Row × ℚ))
    (h : (semantic_search encode query df k st).1 = .ok res) :
    ∃ ixs ds rows, (searchIndices encode query df k st).1 = .ok (ixs, ds)
      ∧ ilocRows df ixs = .ok rows ∧ ds ≠ []
      ∧ res = rows.zip (npSimilarities ds) := by
  unfold semantic_search at h
  split at h
  · cases h
  · rename_i p st1 heq
    dsimp only at h
    unfold hydrate at h
    split at h
    · cases h
    · rename_i rows heq2
      split at h
      · cases h
      · rename_i d t
        simp only [Except.ok.injEq] at h
        refine ⟨p.1, p.2, rows, ?_, heq2, by simp [t], h.symm⟩
        rw [heq]

/-- The distances reported by `semanticDistances` are exactly the second
component of a successful `searchIndices` run. -/
theorem semanticDistances_eq (encode : String → List ℚ) (query : String)
    (df : List Row) (k : ℕ) (st : St) (p : List ℕ × List ℚ)
    (h : (searchIndices encode query df k st).1 = .ok p) :
    semanticDistances encode query df k st = .ok p.2 := by
  unfold semanticDistances
  rw [h]

/-- On success the similarity column of the returned results is exactly
`npSimilarities` of the used distance array. -/
theorem search_ok_sims (encode : String → List ℚ) (query : String)
    (df : List Row) (k : ℕ) (st : St) (res : List (Row × ℚ)) (ixs : List ℕ)
    (ds : List ℚ) (rows : List Row)
    (hsi : (searchIndices encode query df k st).1 = .ok (ixs, ds))
    (hrows : ilocRows df ixs = .ok rows)
    (hres : res = rows.zip (npSimilarities ds)) :
    res.map (fun p => p.2) = npSimilarities ds := by
  obtain ⟨idx, ids, pairs, hf, hmapi, hds⟩ :=
    searchIndices_ok_shape _ _ _ _ _ _ _ hsi
  have hl1 : rows.length = ixs.length := ilocRows_length _ _ _ hrows
  have hl2 : ixs.length = pairs.length := by
    simpa using pyMapIndex_length _ _ _ hmapi
  have hl3 : ds.length = pairs.length := by rw [hds]; simp
  subst hres
  exact List.map_snd_zip rows (npSimilarities ds)
    (by rw [npSimilarities_length, hl3, ← hl2, ← hl1])

/-! ### C2 -/

/-- Claim C2: for every search over a non-empty dataset, the similarity
column equals `1 - distance_i / max(distances)` when the maximum distance is
positive and is all ones otherwise, and consequently every returned
similarity lies in `[0, 1]`. -/
theorem similarity_normalized (encode : String → List ℚ) (query : String)
    (df : List Row) (k : ℕ) (st : St) (res : List (Row × ℚ)) (ds : List ℚ)
    (hne : df ≠ [])
    (hok : (semantic_search encode query df k st).1 = .ok res)
    (hds : semanticDistances encode query df k st = .ok ds) :
    res.map (fun p => p.2) =
      (if 0 < npMax ds then ds.map (fun d => 1 - d / npMax ds)
        else ds.map (fun _ => (1 : ℚ)))
    ∧ ∀ p ∈ res, 0 ≤ p.2 ∧ p.2 ≤ 1 := by
  obtain ⟨ixs, ds0, rows, hsi, hrows, hne0, hres⟩ :=
    search_ok_parts _ _ _ _ _ _ hok
  have hds0 : semanticDistances encode query df k st = .ok ds0 :=
    semanticDistances_eq _ _ _ _ _ (ixs, ds0) hsi
  rw [hds] at hds0
  injection hds0 with hd
  subst hd
  have hsims : res.map (fun p => p.2) = npSimilarities ds :=
    search_ok_sims _ _ _ _ _ _ _ _ _ hsi hrows hres
  obtain ⟨idx, ids, pairs, hf, hmapi, hdseq⟩ :=
    searchIndices_ok_shape _ _ _ _ _ _ _ hsi
  have hpos : ∀ d ∈ ds, 0 ≤ d := by
    intro d hd
    rw [hdseq] at hd
    obtain ⟨x, hx, rfl⟩ := List.mem_map.mp hd
    exact faiss_search_nonneg _ _ _ _ hf x hx
  constructor
  · rw [hsims]
    rfl
  · intro p hp
    have hp2 : p.2 ∈ npSimilarities ds := by
      have hmem : p.2 ∈ res.map (fun p => p.2) := List.mem_map_of_mem _ hp
      rwa [hsims] at hmem
    unfold npSimilarities at hp2
    dsimp only at hp2
    split at hp2
    · rename_i hm
      obtain ⟨d, hd, hdp⟩ := List.mem_map.mp hp2
      have hdm : d ≤ npMax ds := mem_le_npMax ds d hd
      have hdiv1 : d / npMax ds ≤ 1 := (div_le_one hm).mpr hdm
      have hdiv0 : 0 ≤ d / npMax ds := div_nonneg (hpos d hd) (le_of_lt hm)
      rw [← hdp]
      constructor <;> linarith
    · obtain ⟨d, hd, hdp⟩ := List.mem_map.mp hp2
      rw [← hdp]
      norm_num

/-- Witness for C2: for the concrete one-record search with `k = 1` the
similarity column matches the normalization formula evaluated on the
distance array `[361]`. -/
theorem similarity_normalized_witness :
    ([(rowA, (0 : ℚ))].map (fun p => p.2)) =
      (if 0 < npMax [361] then [(361 : ℚ)].map (fun d => 1 - d / npMax [361])
        else [(361 : ℚ)].map (fun _ => (1 : ℚ))) :=
  (similarity_normalized toyEnc "q" df1 1 st0 [(rowA, 0)] [361]
    (by decide) (by decide) (by decide)).1

/-- Claim C5 (amended): for every non-empty dataset, `semantic_search` with
`k = 1` returns a single result whose similarity is `1` exactly when its
distance is `0` and `0` otherwise — the normalization divides the lone
distance by itself, so a positive nearest distance yields similarity `0`,
not `1`. -/
theorem k1_similarity_zero_or_one (encode : String → List ℚ) (query : String)
    (df : List Row) (st : St) (res : List (Row × ℚ)) (ds : List ℚ)
    (hne : df ≠ [])
    (hok : (semantic_search encode query df 1 st).1 = .ok res)
    (hds : semanticDistances encode query df 1 st = .ok ds) :
    ds.length = 1 ∧
      res.map (fun p => p.2) = ds.map (fun d => if 0 < d then (0 : ℚ) else 1) := by
  obtain ⟨ixs, ds0, rows, hsi, hrows, hne0, hres⟩ :=
    search_ok_parts _ _ _ _ _ _ hok
  have hds0 : semanticDistances encode query df 1 st = .ok ds0 :=
    semanticDistances_eq _ _ _ _ _ (ixs, ds0) hsi
  rw [hds] at hds0
  injection hds0 with hd
  subst hd
  have hsims : res.map (fun p => p.2) = npSimilarities ds :=
    search_ok_sims _ _ _ _ _ _ _ _ _ hsi hrows hres
  obtain ⟨idx, ids, pairs, hf, hmapi, hdseq⟩ :=
    searchIndices_ok_shape _ _ _ _ _ _ _ hsi
  have hlen : ds.length = 1 := by
    rw [hdseq]
    simp [faiss_search_length _ _ _ _ hf]
  obtain ⟨d, rfl⟩ := List.length_eq_one.mp hlen
  refine ⟨rfl, ?_⟩
  rw [hsims]
  unfold npSimilarities npMax
  dsimp only
  split
  · rename_i hm
    simp only [List.foldl_nil] at hm
    simp [div_self (ne_of_gt hm), if_pos hm]
  · rename_i hm
    simp only [List.foldl_nil] at hm
    simp [if_neg hm]

/-- Witness for the amended C5: the concrete `k = 1` search has one distance
(361) and its similarity is 0 by the stated rule. -/
theorem k1_similarity_zero_or_one_witness :
    ([(361 : ℚ)].length = 1) ∧
      [(rowA, (0 : ℚ))].map (fun p => p.2) =
        [(361 : ℚ)].map (fun d => if 0 < d then (0 : ℚ) else 1) :=
  k1_similarity_zero_or_one toyEnc "q" df1 st0 [(rowA, 0)] [361]
    (by decide) (by decide) (by decide)

/-! ### C8 -/

/-- Claim C8: every successfully returned result list is ordered by
ascending distance and, equivalently, non-increasing similarity: the used
distance array is `Chain'`-sorted upwards and the similarity column
downwards. The hypothesis that every distance is at most `FLT_MAX` reflects
32-bit float arithmetic, where no finite distance exceeds it. -/
theorem results_ordered (encode : String → List ℚ) (query : String)
    (df : List Row) (k : ℕ) (st : St) (res : List (Row × ℚ)) (ds : List ℚ)
    (hok : (semantic_search encode query df k st).1 = .ok res)
    (hds : semanticDistances encode query df k st = .ok ds)
    (hbound : ∀ d ∈ ds, d ≤ floatMax) :
    List.Chain' (fun a b => a ≤ b) ds
    ∧ List.Chain' (fun a b => b ≤ a) (res.map (fun p => p.2)) := by
  obtain ⟨ixs, ds0, rows, hsi, hrows, hne0, hres⟩ :=
    search_ok_parts _ _ _ _ _ _ hok
  have hds0 : semanticDistances encode query df k st = .ok ds0 :=
    semanticDistances_eq _ _ _ _ _ (ixs, ds0) hsi
  rw [hds] at hds0
  injection hds0 with hd
  subst hd
  have hsims : res.map (fun p => p.2) = npSimilarities ds :=
    search_ok_sims _ _ _ _ _ _ _ _ _ hsi hrows hres
  obtain ⟨idx, ids, pairs, hf, hmapi, hdseq⟩ :=
    searchIndices_ok_shape _ _ _ _ _ _ _ hsi
  obtain ⟨s, m, hps, hsorted, hpos⟩ := faiss_search_ok_shape _ _ _ _ hf
  have hdsform : ds = s.map (fun p => p.1) ++ List.replicate m floatMax := by
    rw [hdseq, hps, List.map_append, List.map_replicate]
  have hpair : List.Pairwise (fun a b : ℚ => a ≤ b) ds := by
    rw [hdsform]
    refine List.pairwise_append.mpr ⟨?_, ?_, ?_⟩
    · exact hsorted.map _ (fun a b hab =>
        hab.elim le_of_lt (fun h => le_of_eq h.1))
    · exact List.pairwise_replicate.mpr (Or.inr (le_refl floatMax))
    · intro a ha b hb
      rw [List.eq_of_mem_replicate hb]
      exact hbound a (hdsform ▸ List.mem_append_left _ ha)
  refine ⟨hpair.chain', ?_⟩
  rw [hsims]
  have hpair2 : List.Pairwise (fun a b : ℚ => b ≤ a) (npSimilarities ds) := by
    unfold npSimilarities
    dsimp only
    split
    · rename_i hm
      exact hpair.map _ (fun a b hab => by
        have hdd : a / npMax ds ≤ b / npMax ds := (div_le_div_iff_of_pos_right hm).mpr hab
        linarith)
    · exact hpair.map _ (fun a b hab => le_refl 1)
  exact hpair2.chain'

/-- Witness for C8: the concrete two-record search with `k = 3` (one padded
slot) has ascending distances `[361, 441, FLT_MAX]` and non-increasing
similarities. -/
theorem results_ordered_witness :
    List.Chain' (fun a b => a ≤ b) [(361 : ℚ), 441, floatMax]
    ∧ List.Chain' (fun a b => b ≤ a)
        ([(rowA, 1 - 361 / floatMax), (rowB, 1 - 441 / floatMax),
          (rowB, (0 : ℚ))].map (fun p => p.2)) :=
  results_ordered toyEnc "q" df2 3 st0
    [(rowA, 1 - 361 / floatMax), (rowB, 1 - 441 / floatMax), (rowB, 0)]
    [361, 441, floatMax] (by decide) (by decide) (by decide)

/-! ### C9 -/

/-- `generate_embeddings` never touches the index file. -/
theorem generate_embeddings_indexFile (encode : String → List ℚ)
    (df : List Row) (st : St) :
    ((generate_embeddings encode df st).2).indexFile = st.indexFile := by
  obtain ⟨cf, idxf⟩ := st
  cases cf with
  | none => rfl
  | some c => by_cases h : cacheValid c df <;> simp [generate_embeddings, h]

/-- Re-generating from the state just written by a cache miss returns the
fresh embeddings again and leaves the state alone. -/
theorem generate_embeddings_after_write (encode : String → List ℚ)
    (df : List Row) (idxf : Option (FaissIndex × List ℕ)) :
    generate_embeddings encode df ⟨some (df.zip (freshEmbs encode df)), idxf⟩ =
      (freshEmbs encode df, ⟨some (df.zip (freshEmbs encode df)), idxf⟩) := by
  by_cases h2 : cacheValid (df.zip (freshEmbs encode df)) df
  · simp only [generate_embeddings, h2, if_true]
    refine Prod.ext ?_ rfl
    exact List.map_snd_zip df (freshEmbs encode df) (by simp [freshEmbs])
  · simp [generate_embeddings, h2]

/-- Generating embeddings twice in a row returns the same embeddings and
the same final state as generating once. -/
theorem generate_embeddings_idem (encode : String → List ℚ) (df : List Row)
    (st : St) :
    generate_embeddings encode df ((generate_embeddings encode df st).2) =
      generate_embeddings encode df st := by
  obtain ⟨cf, idxf⟩ := st
  cases cf with
  | none =>
    have h1 : generate_embeddings encode df ⟨none, idxf⟩ =
        (freshEmbs encode df, ⟨some (df.zip (freshEmbs encode df)), idxf⟩) := rfl
    rw [h1]
    exact generate_embeddings_after_write encode df idxf
  | some c =>
    by_cases h : cacheValid c df
    · have h1 : generate_embeddings encode df ⟨some c, idxf⟩ =
          (c.map (fun p => p.2), ⟨some c, idxf⟩) := by
        simp [generate_embeddings, h]
      rw [h1]
      exact h1
    · have h1 : generate_embeddings encode df ⟨some c, idxf⟩ =
          (freshEmbs encode df, ⟨some (df.zip (freshEmbs encode df)), idxf⟩) := by
        simp [generate_embeddings, h]
      rw [h1]
      exact generate_embeddings_after_write encode df idxf

/-- Building twice in a row returns the same result and the same state as
building once: a fresh build persists an index whose ids count matches the
dataframe, so the second call reuses it; a failed build leaves a state that
fails identically. -/
theorem build_idem (encode : String → List ℚ) (df : List Row) (st : St) :
    build_faiss_index encode df ((build_faiss_index encode df st).2) =
      build_faiss_index encode df st := by
  have hfreshcase : ∀ st' : St,
      (∀ p : FaissIndex × List ℕ, st'.indexFile = some p → ¬p.2.length = df.length) →
      build_faiss_index encode df ((buildFreshIndex encode df st').2) =
        buildFreshIndex encode df st' := by
    intro st' hcond
    have hgidx : ((generate_embeddings encode df st').2).indexFile = st'.indexFile :=
      generate_embeddings_indexFile encode df st'
    cases hnp : np_matrix (generate_embeddings encode df st').1 with
    | error e =>
      have hbf : buildFreshIndex encode df st' =
          (.error e, (generate_embeddings encode df st').2) := by
        simp only [buildFreshIndex]
        rw [hnp]
      rw [hbf]
      dsimp only
      have hb2 : build_faiss_index encode df ((generate_embeddings encode df st').2) =
          buildFreshIndex encode df ((generate_embeddings encode df st').2) := by
        unfold build_faiss_index
        rw [hgidx]
        cases hif : st'.indexFile with
        | none => rfl
        | some p => simp [hcond p hif]
      rw [hb2]
      simp only [buildFreshIndex]
      rw [generate_embeddings_idem, hnp]
    | ok dm =>
      have hbf : buildFreshIndex encode df st' =
          (.ok (⟨dm.1, dm.2⟩, List.range df.length),
            { (generate_embeddings encode df st').2 with
                indexFile := some (⟨dm.1, dm.2⟩, List.range df.length) }) := by
        simp only [buildFreshIndex]
        rw [hnp]
      rw [hbf]
      dsimp only
      unfold build_faiss_index
      simp [List.length_range]
  obtain ⟨cf, idxf⟩ := st
  cases idxf with
  | none =>
    have hb : build_faiss_index encode df ⟨cf, none⟩ =
        buildFreshIndex encode df ⟨cf, none⟩ := rfl
    rw [hb]
    exact hfreshcase _ (fun p hp => Option.noConfusion hp)
  | some p =>
    by_cases hl : p.2.length = df.length
    · have hb : build_faiss_index encode df ⟨cf, some p⟩ =
          (.ok p, ⟨cf, some p⟩) := by
        unfold build_faiss_index
        simp [hl]
      rw [hb]
      exact hb
    · have hb : build_faiss_index encode df ⟨cf, some p⟩ =
          buildFreshIndex encode df ⟨cf, some p⟩ := by
        unfold build_faiss_index
        simp [hl]
      rw [hb]
      refine hfreshcase _ (fun q hq => ?_)
      injection hq with h
      subst h
      exact hl

/-- Running the index-settling pipeline a second time from the state the
first run left behind changes nothing: the same result and the same state. -/
theorem searchIndices_idem (encode : String → List ℚ) (query : String)
    (df : List Row) (k : ℕ) (st : St) :
    searchIndices encode query df k ((searchIndices encode query df k st).2) =
      searchIndices encode query df k st := by
  have hbi := build_idem encode df st
  rcases hb : build_faiss_index encode df st with ⟨r, st1⟩
  rw [hb] at hbi
  dsimp only at hbi
  cases r with
  | error e =>
    have h1 : searchIndices encode query df k st = (.error e, st1) := by
      unfold searchIndices
      rw [hb]
    have h2 : searchIndices encode query df k st1 = (.error e, st1) := by
      unfold searchIndices
      rw [hbi]
    rw [h1]
    dsimp only
    rw [h2]
  | ok p =>
    obtain ⟨idx, ids⟩ := p
    by_cases hd : (encode query).length ≠ idx.d
    · rcases hb2 : build_faiss_index encode df (⟨none, none⟩ : St) with ⟨r2, st3⟩
      have hbi2 := build_idem encode df (⟨none, none⟩ : St)
      rw [hb2] at hbi2
      dsimp only at hbi2
      cases r2 with
      | error e =>
        have h1 : searchIndices encode query df k st = (.error e, st3) := by
          unfold searchIndices
          rw [hb]
          dsimp only
          rw [if_pos hd, hb2]
        have h2 : searchIndices encode query df k st3 = (.error e, st3) := by
          unfold searchIndices
          rw [hbi2]
        rw [h1]
        dsimp only
        rw [h2]
      | ok p2 =>
        obtain ⟨idx2, ids2⟩ := p2
        have h1 : searchIndices encode query df k st =
            (searchAfterIndex encode query k idx2 ids2, st3) := by
          unfold searchIndices
          rw [hb]
          dsimp only
          rw [if_pos hd, hb2]
        have h2 : searchIndices encode query df k st3 =
            (searchAfterIndex encode query k idx2 ids2, st3) := by
          unfold searchIndices
          rw [hbi2]
          dsimp only
          by_cases hd2 : (encode query).length ≠ idx2.d
          · rw [if_pos hd2, hb2]
          · rw [if_neg hd2]
        rw [h1]
        dsimp only
        rw [h2]
    · have h1 : searchIndices encode query df k st =
          (searchAfterIndex encode query k idx ids, st1) := by
        unfold searchIndices
        rw [hb]
        dsimp only
        rw [if_neg hd]
      have h2 : searchIndices encode query df k st1 =
          (searchAfterIndex encode query k idx ids, st1) := by
        unfold searchIndices
        rw [hbi]
        dsimp only
        rw [if_neg hd]
      rw [h1]
      dsimp only
      rw [h2]

/-- Claim C9: for a fixed dataset and a fixed deterministic embedder, two
consecutive `semantic_search` calls with the same query and `k` (the second
starting from the file state the first left behind) return identical
results. -/
theorem search_deterministic (encode : String → List ℚ) (query : String)
    (df : List Row) (k : ℕ) (st : St) :
    (semantic_search encode query df k
        ((semantic_search encode query df k st).2)).1 =
      (semantic_search encode query df k st).1 := by
  have hsi := searchIndices_idem encode query df k st
  rcases h : searchIndices encode query df k st with ⟨r, st1⟩
  rw [h] at hsi
  dsimp only at hsi
  cases r with
  | error e =>
    have h1 : semantic_search encode query df k st = (.error e, st1) := by
      unfold semantic_search
      rw [h]
    have h2 : semantic_search encode query df k st1 = (.error e, st1) := by
      unfold semantic_search
      rw [hsi]
    rw [h1]
    dsimp only
    rw [h2]
  | ok p =>
    have h1 : semantic_search encode query df k st = (hydrate df p.1 p.2, st1) := by
      unfold semantic_search
      rw [h]
    have h2 : semantic_search encode query df k st1 = (hydrate df p.1 p.2, st1) := by
      unfold semantic_search
      rw [hsi]
    rw [h1]
    dsimp only
    rw [h2]
